import Mathlib

/-!
Verification of the Tic Tac Toe backend's rules engine and game state
machine, shallowly embedded from `src/tic_tac_toe_backend/src/api/services.py`,
`routes.py` and `models.py`.

The board is stored in the source as a 9-character string over the alphabet
" ", "X", "O" and converted to a list of one-character cells before use
(`Game.get_board_list`); here a cell is `Option Sym` with `none` for " ".
The HTTP handlers raise `HTTPException` before any database commit on every
failure path, so the committed database state (`Db`) is returned unchanged
there; on success the single `db.commit()` installs the updated game.
-/

set_option linter.unusedVariables false

namespace TicTacToe

/-- A player marker, "X" or "O" in the source. -/
inductive Sym
  | X
  | O
deriving DecidableEq, Repr

/-- One board cell: " " in the source is `none`, a mark is `some`. -/
abbrev Cell := Option Sym

/-- A board snapshot, as produced by `Game.get_board_list` in `models.py`. -/
abbrev Board := List Cell

/-- The tuple `WINNING_LINES` of `services.py`, in source order. -/
def WINNING_LINES : List (Nat × Nat × Nat) :=
  [(0, 1, 2), (3, 4, 5), (6, 7, 8), (0, 3, 6), (1, 4, 7), (2, 5, 8), (0, 4, 8), (2, 4, 6)]

/-- Python list indexing `board[i]` for the indices the source actually uses
(always within range on a 9-cell board). -/
def cellAt (b : Board) (i : Nat) : Cell := b.getD i none

/-- The loop body of `check_winner`: walk the winning lines in order and
return the cell content of the first line whose three cells are non-empty
and equal (`board[a] != " " and board[a] == board[b] == board[c]`). -/
def checkLines (b : Board) : List (Nat × Nat × Nat) → Option Sym
  | [] => none
  | (i, j, k) :: rest =>
      if cellAt b i ≠ none ∧ cellAt b i = cellAt b j ∧ cellAt b j = cellAt b k then
        cellAt b i
      else
        checkLines b rest

/-- `check_winner` from `services.py`. -/
def check_winner (b : Board) : Option Sym := checkLines b WINNING_LINES

/-- `is_draw` from `services.py`:
`all(cell != " " for cell in board) and check_winner(board) is None`. -/
def is_draw (b : Board) : Bool :=
  b.all (fun cell => cell.isSome) && (check_winner b).isNone

/-- The error kinds of the spec, naming the failure modes of `submit_move`
and `validate_move` (the source raises `HTTPException` / `ValueError` with
a message for each kind). -/
inductive MoveError
  | GameFinished
  | WrongTurn
  | OutOfRange
  | CellOccupied
deriving DecidableEq, Repr

/-- `validate_move` from `services.py`: raises on a position outside [0,8]
or an occupied cell, otherwise returns without touching the board. -/
def validate_move (board : Board) (position : Int) : Except MoveError Unit :=
  if ¬ (0 ≤ position ∧ position ≤ 8) then
    Except.error MoveError.OutOfRange
  else if (cellAt board position.toNat).isSome then
    Except.error MoveError.CellOccupied
  else
    Except.ok ()

/-- Game status, the string column `status` of `models.py`. -/
inductive Status
  | in_progress
  | won
  | draw
deriving DecidableEq, Repr

/-- A `Move` row (`models.py`), the fields the core logic reads and writes. -/
structure MoveRec where
  player_symbol : Sym
  position : Int
  move_number : Nat
deriving DecidableEq, Repr

/-- A `Game` row (`models.py`) together with its move list, which the ORM
keeps ordered by `move_number` and to which `submit_move` appends. -/
structure Game where
  board : Board
  next_player : Sym
  status : Status
  winner : Option Sym
  player_x_id : Option Nat
  player_o_id : Option Nat
  moves : List MoveRec
deriving DecidableEq, Repr

/-- The committed database state seen by one game's move submissions. -/
structure Db where
  game : Game
deriving DecidableEq, Repr

/-- The move-submission handler `submit_move` of `routes.py`, for a game
that exists.  Checks run in source order: game status, turn, then
`validate_move` (range, occupancy).  Every failure path raises before any
mutation or commit, so the database component is returned unchanged there;
the success path applies the move, appends the `Move` row, recomputes
winner/draw on the post-move board, and commits everything at once. -/
def submit_move (db : Db) (player : Sym) (position : Int) : Db × Except MoveError Game :=
  let game := db.game
  if game.status ≠ Status.in_progress then
    (db, Except.error MoveError.GameFinished)
  else if player ≠ game.next_player then
    (db, Except.error MoveError.WrongTurn)
  else
    match validate_move game.board position with
    | Except.error e => (db, Except.error e)
    | Except.ok _ =>
      let board := game.board.set position.toNat (some player)
      let move_number :=
        match game.moves.getLast? with
        | some m => m.move_number + 1
        | none => 1
      let move : MoveRec :=
        { player_symbol := player, position := position, move_number := move_number }
      let game' :=
        match check_winner board with
        | some w =>
            { game with board := board, moves := game.moves ++ [move],
                        status := Status.won, winner := some w }
        | none =>
            if is_draw board then
              { game with board := board, moves := game.moves ++ [move],
                          status := Status.draw, winner := none }
            else
              { game with board := board, moves := game.moves ++ [move],
                          next_player := if game.next_player = Sym.X then Sym.O else Sym.X }
      ({ game := game' }, Except.ok game')

/-- A `Player` row (`models.py`), the fields the creation logic uses. -/
structure PlayerRec where
  id : Nat
  name : String
deriving DecidableEq, Repr

/-- The players table plus the autoincrement id counter. -/
structure Store where
  players : List PlayerRec
  nextId : Nat
deriving DecidableEq, Repr

/-- `db.scalar(select(Player).where(Player.name == name))`. -/
def findPlayerByName (st : Store) (n : String) : Option PlayerRec :=
  st.players.find? (fun p => p.name == n)

/-- The per-symbol player resolution of `create_game` in `routes.py`: skip a
missing or empty name (Python truthiness), reuse an existing player, else
create one; `db.flush()` makes the new row visible to later lookups in the
same request. -/
def resolvePlayer (st : Store) (name : Option String) : Store × Option PlayerRec :=
  match name with
  | none => (st, none)
  | some n =>
      if n = "" then (st, none)
      else
        match findPlayerByName st n with
        | some p => (st, some p)
        | none =>
            let p : PlayerRec := { id := st.nextId, name := n }
            ({ players := st.players ++ [p], nextId := st.nextId + 1 }, some p)

/-- `create_game` from `routes.py`: resolve the optional X then O player
names against the store (in that order, X's flush visible to O's lookup),
then insert a fresh game with an all-blank board. -/
def create_game (st : Store) (player_x_name player_o_name : Option String) : Store × Game :=
  let rx := resolvePlayer st player_x_name
  let ro := resolvePlayer rx.1 player_o_name
  (ro.1,
    { board := List.replicate 9 none
      next_player := Sym.X
      status := Status.in_progress
      winner := none
      player_x_id := rx.2.map (fun p => p.id)
      player_o_id := ro.2.map (fun p => p.id)
      moves := [] })

/-- Games reachable by `create_game` followed by any number of successful
`submit_move` calls. -/
inductive Reachable : Game → Prop
  | base (st : Store) (xn yn : Option String) : Reachable (create_game st xn yn).2
  | step (g : Game) (p : Sym) (pos : Int) (g' : Game) :
      Reachable g → (submit_move ⟨g⟩ p pos).2 = Except.ok g' → Reachable g'

/-- A winning line in the spec's words: its three cells are non-empty and
equal. -/
def lineWins (b : Board) : Nat × Nat × Nat → Bool
  | (i, j, k) => (cellAt b i).isSome && (cellAt b i == cellAt b j) && (cellAt b j == cellAt b k)

/-- The spec's description of checkWinner: the symbol of the first winning
triple of the fixed list `WINNING_LINES`, in order, or `none`. -/
def check_winner_spec (b : Board) : Option Sym :=
  (WINNING_LINES.find? (lineWins b)).bind (fun l => cellAt b l.1)

theorem checkLines_eq_find (b : Board) (ls : List (Nat × Nat × Nat)) :
    checkLines b ls = (ls.find? (lineWins b)).bind (fun l => cellAt b l.1) := by
  induction ls with
  | nil => rfl
  | cons l rest ih =>
    obtain ⟨i, j, k⟩ := l
    by_cases h : cellAt b i ≠ none ∧ cellAt b i = cellAt b j ∧ cellAt b j = cellAt b k
    · have hb : lineWins b (i, j, k) = true := by
        simp only [lineWins, Bool.and_eq_true, beq_iff_eq, Option.isSome_iff_ne_none]
        exact ⟨⟨h.1, h.2.1⟩, h.2.2⟩
      simp only [checkLines, if_pos h, List.find?_cons_of_pos _ hb, Option.some_bind]
    · have hb : ¬ lineWins b (i, j, k) = true := by
        simp only [lineWins, Bool.and_eq_true, beq_iff_eq, Option.isSome_iff_ne_none]
        intro hc
        exact h ⟨hc.1.1, hc.1.2, hc.2⟩
      simp only [checkLines, if_neg h, List.find?_cons_of_neg _ hb, ih]

/-- C2: `check_winner` inspects exactly the 8 triples of `WINNING_LINES` in
their fixed order, a line wins iff its three cells are non-empty and equal,
and the result is the symbol of the first winning line, else `none`.  (It
is a pure function of the board, so the board is not modified.) -/
theorem check_winner_eq_first_winning_line (b : Board) :
    check_winner b = check_winner_spec b := by
  rw [check_winner, check_winner_spec, checkLines_eq_find]

/-- C4: on a 9-cell board, `is_draw` is true iff all 9 cells are occupied
and `check_winner` returns `none`; a full board with a winning line is
therefore not a draw. -/
theorem is_draw_iff_full_and_no_winner (b : Board) (h : b.length = 9) :
    is_draw b = true ↔ ((∀ i, i < 9 → (cellAt b i).isSome = true) ∧ check_winner b = none) := by
  unfold is_draw
  simp only [Bool.and_eq_true, List.all_eq_true, Option.isNone_iff_eq_none]
  constructor
  · rintro ⟨hall, hw⟩
    refine ⟨fun i hi => ?_, hw⟩
    have hi' : i < b.length := by omega
    rw [cellAt, List.getD_eq_getElem _ _ hi']
    exact hall _ (List.getElem_mem hi')
  · rintro ⟨hall, hw⟩
    refine ⟨fun c hc => ?_, hw⟩
    obtain ⟨i, hi, rfl⟩ := List.mem_iff_getElem.mp hc
    have h9 : i < 9 := by omega
    have hx := hall i h9
    rwa [cellAt, List.getD_eq_getElem _ _ hi] at hx

/-- A completed draw board, used to instantiate theorems about draws. -/
def drawBoard : Board :=
  [some Sym.X, some Sym.X, some Sym.O,
   some Sym.O, some Sym.O, some Sym.X,
   some Sym.X, some Sym.O, some Sym.X]

/-- Witness for C4 at a concrete full drawn board. -/
theorem is_draw_iff_full_and_no_winner_witness :
    is_draw drawBoard = true ↔
      ((∀ i, i < 9 → (cellAt drawBoard i).isSome = true) ∧ check_winner drawBoard = none) :=
  is_draw_iff_full_and_no_winner drawBoard (by decide)

/-- The spec's failure-priority description of submitMove (§4.2 steps 1-3):
game status first, then turn, then range, then occupancy. -/
def submit_move_check (g : Game) (p : Sym) (pos : Int) : Option MoveError :=
  if g.status ≠ Status.in_progress then some MoveError.GameFinished
  else if p ≠ g.next_player then some MoveError.WrongTurn
  else if ¬ (0 ≤ pos ∧ pos ≤ 8) then some MoveError.OutOfRange
  else if (cellAt g.board pos.toNat).isSome then some MoveError.CellOccupied
  else none

/-- The error component of a submit-move result. -/
def errorOf : Except MoveError Game → Option MoveError
  | Except.error e => some e
  | Except.ok _ => none

/-- C5: `submit_move` fails with exactly the error selected by the spec's
check order (GameFinished, then WrongTurn, then OutOfRange, then
CellOccupied) and succeeds exactly when none of the checks fire; the
validation step `validate_move` is a pure function of the board and does
not mutate it. -/
theorem submit_move_error_priority (g : Game) (p : Sym) (pos : Int) :
    errorOf (submit_move ⟨g⟩ p pos).2 = submit_move_check g p pos := by
  by_cases h1 : g.status = Status.in_progress
  · by_cases h2 : p = g.next_player
    · by_cases h3 : 0 ≤ pos ∧ pos ≤ 8
      · by_cases h4 : (cellAt g.board pos.toNat).isSome
        · simp [submit_move, submit_move_check, validate_move, errorOf, h1, h2, h3, h4]
        · simp [submit_move, submit_move_check, validate_move, errorOf, h1, h2, h3, h4]
      · simp [submit_move, submit_move_check, validate_move, errorOf, h1, h2, h3]
    · simp [submit_move, submit_move_check, errorOf, h1, h2]
  · simp [submit_move, submit_move_check, errorOf, h1]

/-- C7: a failing `submit_move` commits nothing: the database state it
returns is exactly the one it was given, so board, status, winner,
next_player and the move list are all unchanged. -/
theorem submit_move_error_leaves_db_unchanged (db : Db) (p : Sym) (pos : Int) (e : MoveError)
    (h : (submit_move db p pos).2 = Except.error e) :
    (submit_move db p pos).1 = db := by
  by_cases h1 : db.game.status = Status.in_progress
  · by_cases h2 : p = db.game.next_player
    · cases hv : validate_move db.game.board pos with
      | error e' => simp [submit_move, h1, h2, hv]
      | ok u => simp [submit_move, h1, h2, hv] at h
    · simp [submit_move, h1, h2]
  · simp [submit_move, h1]

/-- A game X has already won, with the winning row 0-1-2 occupied. -/
def finishedGame : Game :=
  { board := [some Sym.X, some Sym.X, some Sym.X,
              some Sym.O, some Sym.O, none, none, none, none]
    next_player := Sym.X
    status := Status.won
    winner := some Sym.X
    player_x_id := none
    player_o_id := none
    moves := [{ player_symbol := Sym.X, position := 0, move_number := 1 },
              { player_symbol := Sym.O, position := 3, move_number := 2 },
              { player_symbol := Sym.X, position := 1, move_number := 3 },
              { player_symbol := Sym.O, position := 4, move_number := 4 },
              { player_symbol := Sym.X, position := 2, move_number := 5 }] }

/-- Witness for C7 at a concrete failing call (finished game). -/
theorem submit_move_error_leaves_db_unchanged_witness :
    (submit_move ⟨finishedGame⟩ Sym.X 5).1 = ⟨finishedGame⟩ :=
  submit_move_error_leaves_db_unchanged ⟨finishedGame⟩ Sym.X 5 MoveError.GameFinished (by rfl)

/-- C3 counterexample: on a WON game whose cell 0 is occupied, submitting to
position 0 fails with GameFinished for either symbol, not CellOccupied, so
the occupied-cell failure is not independent of game status. -/
theorem occupied_cell_on_finished_game_not_cell_occupied :
    (cellAt finishedGame.board 0).isSome = true ∧
    errorOf (submit_move ⟨finishedGame⟩ Sym.X 0).2 = some MoveError.GameFinished ∧
    errorOf (submit_move ⟨finishedGame⟩ Sym.O 0).2 = some MoveError.GameFinished ∧
    errorOf (submit_move ⟨finishedGame⟩ Sym.X 0).2 ≠ some MoveError.CellOccupied ∧
    errorOf (submit_move ⟨finishedGame⟩ Sym.O 0).2 ≠ some MoveError.CellOccupied := by
  decide

/-- C3 amended: on an IN_PROGRESS game, submitting with the symbol whose
turn it is to any in-range occupied position fails with CellOccupied. -/
theorem submit_move_occupied_in_progress (g : Game) (pos : Int)
    (hst : g.status = Status.in_progress)
    (hlo : 0 ≤ pos) (hhi : pos ≤ 8)
    (ho : (cellAt g.board pos.toNat).isSome = true) :
    (submit_move ⟨g⟩ g.next_player pos).2 = Except.error MoveError.CellOccupied := by
  simp [submit_move, validate_move, hst, hlo, hhi, ho]

/-- The `Move` row that a successful submission appends: the requested
symbol and position, numbered after the last existing move. -/
def newMove (g : Game) (p : Sym) (pos : Int) : MoveRec :=
  { player_symbol := p
    position := pos
    move_number :=
      match g.moves.getLast? with
      | some m => m.move_number + 1
      | none => 1 }

/-- The committed game after a successful submission: the cell written, the
move appended, and status/winner/next_player finalized from the post-move
board. -/
def postGame (g : Game) (p : Sym) (pos : Int) : Game :=
  let board := g.board.set pos.toNat (some p)
  match check_winner board with
  | some w =>
      { g with board := board, moves := g.moves ++ [newMove g p pos],
               status := Status.won, winner := some w }
  | none =>
      if is_draw board then
        { g with board := board, moves := g.moves ++ [newMove g p pos],
                 status := Status.draw, winner := none }
      else
        { g with board := board, moves := g.moves ++ [newMove g p pos],
                 next_player := if g.next_player = Sym.X then Sym.O else Sym.X }

theorem submit_move_ok_eq (g : Game) (p : Sym) (pos : Int)
    (hst : g.status = Status.in_progress) (hp : p = g.next_player)
    (hval : validate_move g.board pos = Except.ok ()) :
    submit_move ⟨g⟩ p pos = (⟨postGame g p pos⟩, Except.ok (postGame g p pos)) := by
  simp only [submit_move, postGame, newMove]
  rw [if_neg (by simp [hst]), if_neg (by simp [hp]), hval]

theorem submit_move_ok_inv (g : Game) (p : Sym) (pos : Int) (g' : Game)
    (h : (submit_move ⟨g⟩ p pos).2 = Except.ok g') :
    g.status = Status.in_progress ∧ p = g.next_player ∧
    validate_move g.board pos = Except.ok () ∧ g' = postGame g p pos := by
  by_cases h1 : g.status = Status.in_progress
  · by_cases h2 : p = g.next_player
    · cases hv : validate_move g.board pos with
      | error e => simp [submit_move, h1, h2, hv] at h
      | ok u =>
          cases u
          rw [submit_move_ok_eq g p pos h1 h2 hv] at h
          simp only [Except.ok.injEq] at h
          exact ⟨h1, h2, rfl, h.symm⟩
    · simp [submit_move, h1, h2] at h
  · simp [submit_move, h1] at h

theorem validate_move_ok_inv (b : Board) (pos : Int)
    (h : validate_move b pos = Except.ok ()) :
    0 ≤ pos ∧ pos ≤ 8 ∧ cellAt b pos.toNat = none := by
  unfold validate_move at h
  by_cases h1 : 0 ≤ pos ∧ pos ≤ 8
  · rw [if_neg (by simpa using h1)] at h
    by_cases h2 : (cellAt b pos.toNat).isSome
    · rw [if_pos h2] at h
      exact absurd h (by simp)
    · exact ⟨h1.1, h1.2, Option.not_isSome_iff_eq_none.mp h2⟩
  · rw [if_pos h1] at h
    exact absurd h (by simp)

/-- C1: a legal move on an IN_PROGRESS game succeeds, writes the symbol
into the chosen cell, and finalizes from the post-move board: a winner
gives WON with that winner and a stale next_player; else a full board
gives DRAW with no winner; else the game stays IN_PROGRESS and the turn
flips. -/
theorem submit_move_in_progress_transition (g : Game) (p : Sym) (pos : Int)
    (hst : g.status = Status.in_progress) (hp : p = g.next_player)
    (hlo : 0 ≤ pos) (hhi : pos ≤ 8)
    (he : cellAt g.board pos.toNat = none) :
    ∃ g', (submit_move ⟨g⟩ p pos).2 = Except.ok g' ∧
      g'.board = g.board.set pos.toNat (some p) ∧
      ((∃ w, check_winner g'.board = some w ∧ g'.status = Status.won ∧
          g'.winner = some w ∧ g'.next_player = g.next_player) ∨
       (check_winner g'.board = none ∧ is_draw g'.board = true ∧
          g'.status = Status.draw ∧ g'.winner = none) ∨
       (check_winner g'.board = none ∧ is_draw g'.board = false ∧
          g'.status = Status.in_progress ∧
          g'.next_player = (if g.next_player = Sym.X then Sym.O else Sym.X))) := by
  have hval : validate_move g.board pos = Except.ok () := by
    simp [validate_move, hlo, hhi, he]
  refine ⟨postGame g p pos, by rw [submit_move_ok_eq g p pos hst hp hval], ?_, ?_⟩
  · cases hw : check_winner (g.board.set pos.toNat (some p)) with
    | some w => simp [postGame, hw]
    | none =>
        cases hd : is_draw (g.board.set pos.toNat (some p)) with
        | true => simp [postGame, hw, hd]
        | false => simp [postGame, hw, hd]
  · cases hw : check_winner (g.board.set pos.toNat (some p)) with
    | some w =>
        refine Or.inl ⟨w, ?_, ?_, ?_, ?_⟩ <;> simp [postGame, hw]
    | none =>
        cases hd : is_draw (g.board.set pos.toNat (some p)) with
        | true =>
            refine Or.inr (Or.inl ⟨?_, ?_, ?_, ?_⟩) <;> simp [postGame, hw, hd]
        | false =>
            refine Or.inr (Or.inr ⟨?_, ?_, ?_, ?_⟩) <;> simp [postGame, hw, hd, hst]

/-- The game produced by `create_game` on an empty store with no player
names. -/
def freshGame : Game := (create_game ⟨[], 1⟩ none none).2

/-- Witness for C1: X legally plays the centre of a fresh game. -/
theorem submit_move_in_progress_transition_witness :
    ∃ g', (submit_move ⟨freshGame⟩ Sym.X 4).2 = Except.ok g' ∧
      g'.board = freshGame.board.set (Int.toNat 4) (some Sym.X) ∧
      ((∃ w, check_winner g'.board = some w ∧ g'.status = Status.won ∧
          g'.winner = some w ∧ g'.next_player = freshGame.next_player) ∨
       (check_winner g'.board = none ∧ is_draw g'.board = true ∧
          g'.status = Status.draw ∧ g'.winner = none) ∨
       (check_winner g'.board = none ∧ is_draw g'.board = false ∧
          g'.status = Status.in_progress ∧
          g'.next_player = (if freshGame.next_player = Sym.X then Sym.O else Sym.X))) :=
  submit_move_in_progress_transition freshGame Sym.X 4 (by decide) (by decide)
    (by decide) (by decide) (by decide)

/-- An in-progress game whose cell 0 is already occupied. -/
def occupiedGame : Game :=
  { board := [some Sym.X, none, none, none, none, none, none, none, none]
    next_player := Sym.O
    status := Status.in_progress
    winner := none
    player_x_id := none
    player_o_id := none
    moves := [{ player_symbol := Sym.X, position := 0, move_number := 1 }] }

/-- Witness for the amended C3 at a concrete occupied cell. -/
theorem submit_move_occupied_in_progress_witness :
    (submit_move ⟨occupiedGame⟩ occupiedGame.next_player 0).2 =
      Except.error MoveError.CellOccupied :=
  submit_move_occupied_in_progress occupiedGame 0 (by decide) (by decide) (by decide) (by decide)

/-- Number of cells carrying symbol `s`. -/
def countSym (b : Board) (s : Sym) : Nat := b.countP (fun c => c == some s)

/-- Number of occupied (non-empty) cells. -/
def occupiedCount (b : Board) : Nat := b.countP (fun c => c.isSome)

/-- The inductive invariant that `create_game` establishes and every
successful `submit_move` preserves. -/
structure Inv (g : Game) : Prop where
  len9 : g.board.length = 9
  move_num : ∀ i (h : i < g.moves.length), (g.moves[i]).move_number = i + 1
  move_sym : ∀ i (h : i < g.moves.length),
      (g.moves[i]).player_symbol = (if i % 2 = 0 then Sym.X else Sym.O)
  countX : countSym g.board Sym.X = (g.moves.length + 1) / 2
  countO : countSym g.board Sym.O = g.moves.length / 2
  occ : occupiedCount g.board = g.moves.length
  next_ok : g.status = Status.in_progress →
      g.next_player = (if g.moves.length % 2 = 0 then Sym.X else Sym.O)
  winner_iff : g.winner.isSome = true ↔ g.status = Status.won

theorem inv_create (st : Store) (xn yn : Option String) : Inv (create_game st xn yn).2 := by
  constructor
  · rfl
  · intro i h
    exact absurd h (by simp [create_game])
  · intro i h
    exact absurd h (by simp [create_game])
  · simp [create_game, countSym]
  · simp [create_game, countSym]
  · simp [create_game, occupiedCount]
  · intro _
    rfl
  · simp [create_game]

theorem countP_set_none (b : Board) (i : Nat) (c : Cell) (q : Cell → Bool)
    (hi : i < b.length) (hn : b[i] = none) (hq : q none = false) :
    (b.set i c).countP q = b.countP q + (if q c then 1 else 0) := by
  rw [List.countP_set q b i c hi, hn, hq]
  simp

theorem newMove_number (g : Game) (p : Sym) (pos : Int) (hg : Inv g) :
    (newMove g p pos).move_number = g.moves.length + 1 := by
  unfold newMove
  cases hm : g.moves.getLast? with
  | none =>
      simp [List.getLast?_eq_none_iff.mp hm]
  | some m =>
      have hne : g.moves ≠ [] := by
        intro hh
        rw [hh] at hm
        simp at hm
      have hlen : 0 < g.moves.length := List.length_pos.mpr hne
      rw [List.getLast?_eq_getElem? _, List.getElem?_eq_getElem (by omega)] at hm
      simp only [Option.some.injEq] at hm
      have hmn := hg.move_num (g.moves.length - 1) (by omega)
      rw [hm] at hmn
      simp only [hmn]
      omega

theorem inv_step (g : Game) (p : Sym) (pos : Int) (g' : Game)
    (hg : Inv g) (h : (submit_move ⟨g⟩ p pos).2 = Except.ok g') : Inv g' := by
  obtain ⟨hst, hp, hval, hpost⟩ := submit_move_ok_inv g p pos g' h
  obtain ⟨hlo, hhi, he⟩ := validate_move_ok_inv g.board pos hval
  subst hpost
  have hlt : pos.toNat < g.board.length := by
    rw [hg.len9]
    omega
  have hge : g.board[pos.toNat] = none := by
    have hx := he
    rwa [cellAt, List.getD_eq_getElem _ _ hlt] at hx
  have hnext := hg.next_ok hst
  have hpar : p = (if g.moves.length % 2 = 0 then Sym.X else Sym.O) := hp.trans hnext
  have hmn := newMove_number g p pos hg
  have hlen2 : (g.board.set pos.toNat (some p)).length = 9 := by
    rw [List.length_set, hg.len9]
  have hcX : countSym (g.board.set pos.toNat (some p)) Sym.X =
      countSym g.board Sym.X + (if p = Sym.X then 1 else 0) := by
    unfold countSym
    rw [countP_set_none g.board pos.toNat (some p) _ hlt hge (by rfl)]
    cases p <;> simp
  have hcO : countSym (g.board.set pos.toNat (some p)) Sym.O =
      countSym g.board Sym.O + (if p = Sym.O then 1 else 0) := by
    unfold countSym
    rw [countP_set_none g.board pos.toNat (some p) _ hlt hge (by rfl)]
    cases p <;> simp
  have hocc2 : occupiedCount (g.board.set pos.toNat (some p)) = occupiedCount g.board + 1 := by
    unfold occupiedCount
    rw [countP_set_none g.board pos.toNat (some p) _ hlt hge (by rfl)]
    simp
  have hml : (g.moves ++ [newMove g p pos]).length = g.moves.length + 1 := by simp
  have hmn2 : ∀ i (hi : i < (g.moves ++ [newMove g p pos]).length),
      ((g.moves ++ [newMove g p pos])[i]).move_number = i + 1 := by
    intro i hi
    rw [hml] at hi
    by_cases hiN : i < g.moves.length
    · rw [List.getElem_append_left hiN]
      exact hg.move_num i hiN
    · have hieq : i = g.moves.length := by omega
      subst hieq
      rw [List.getElem_append_right (Nat.le_refl _)]
      simpa using hmn
  have hms2 : ∀ i (hi : i < (g.moves ++ [newMove g p pos]).length),
      ((g.moves ++ [newMove g p pos])[i]).player_symbol =
        (if i % 2 = 0 then Sym.X else Sym.O) := by
    intro i hi
    rw [hml] at hi
    by_cases hiN : i < g.moves.length
    · rw [List.getElem_append_left hiN]
      exact hg.move_sym i hiN
    · have hieq : i = g.moves.length := by omega
      subst hieq
      rw [List.getElem_append_right (Nat.le_refl _)]
      simpa [newMove] using hpar
  have hX2 : countSym (g.board.set pos.toNat (some p)) Sym.X =
      (g.moves.length + 1 + 1) / 2 := by
    rw [hcX, hg.countX, hpar]
    rcases Nat.mod_two_eq_zero_or_one g.moves.length with h2 | h2 <;> simp [h2] <;> omega
  have hO2 : countSym (g.board.set pos.toNat (some p)) Sym.O =
      (g.moves.length + 1) / 2 := by
    rw [hcO, hg.countO, hpar]
    rcases Nat.mod_two_eq_zero_or_one g.moves.length with h2 | h2 <;> simp [h2] <;> omega
  have hoccl : occupiedCount (g.board.set pos.toNat (some p)) =
      (g.moves ++ [newMove g p pos]).length := by
    rw [hocc2, hg.occ, hml]
  cases hw : check_winner (g.board.set pos.toNat (some p)) with
  | some w =>
      have hpg : postGame g p pos =
          { g with board := g.board.set pos.toNat (some p),
                   moves := g.moves ++ [newMove g p pos],
                   status := Status.won, winner := some w } := by
        simp [postGame, hw]
      rw [hpg]
      refine ⟨hlen2, hmn2, hms2, ?_, ?_, hoccl, ?_, ?_⟩
      · rw [hml, hX2]
      · rw [hml, hO2]
      · intro hc
        simp at hc
      · simp
  | none =>
      cases hd : is_draw (g.board.set pos.toNat (some p)) with
      | true =>
          have hpg : postGame g p pos =
              { g with board := g.board.set pos.toNat (some p),
                       moves := g.moves ++ [newMove g p pos],
                       status := Status.draw, winner := none } := by
            simp [postGame, hw, hd]
          rw [hpg]
          refine ⟨hlen2, hmn2, hms2, ?_, ?_, hoccl, ?_, ?_⟩
          · rw [hml, hX2]
          · rw [hml, hO2]
          · intro hc
            simp at hc
          · simp
      | false =>
          have hpg : postGame g p pos =
              { g with board := g.board.set pos.toNat (some p),
                       moves := g.moves ++ [newMove g p pos],
                       next_player := if g.next_player = Sym.X then Sym.O else Sym.X } := by
            simp [postGame, hw, hd]
          rw [hpg]
          refine ⟨hlen2, hmn2, hms2, ?_, ?_, hoccl, ?_, hg.winner_iff⟩
          · rw [hml, hX2]
          · rw [hml, hO2]
          · intro _
            rw [hml, hnext]
            rcases Nat.mod_two_eq_zero_or_one g.moves.length with h2 | h2
            · have h3 : (g.moves.length + 1) % 2 = 1 := by omega
              simp [h2, h3]
            · have h3 : (g.moves.length + 1) % 2 = 0 := by omega
              simp [h2, h3]

theorem reachable_inv (g : Game) (h : Reachable g) : Inv g := by
  induction h with
  | base st xn yn => exact inv_create st xn yn
  | step g p pos g' hr hok ih => exact inv_step g p pos g' ih hok

/-- C6: a successful `submit_move` appends exactly one move, numbered
last-existing-move-number + 1 (1 with no prior moves, which equals the
move count + 1); and on any reachable game the recorded move_numbers are
exactly 1..N with no gaps and exactly N board cells are non-empty. -/
theorem move_numbers_contiguous (g : Game) (p : Sym) (pos : Int) (g' : Game)
    (h : Reachable g) (hok : (submit_move ⟨g⟩ p pos).2 = Except.ok g') :
    g.moves.map (fun m => m.move_number) = List.range' 1 g.moves.length ∧
    occupiedCount g.board = g.moves.length ∧
    ∃ m, g'.moves = g.moves ++ [m] ∧
      m.move_number = (match g.moves.getLast? with
        | some mv => mv.move_number + 1
        | none => 1) ∧
      m.move_number = g.moves.length + 1 := by
  have hInv := reachable_inv g h
  obtain ⟨hst, hp, hval, hpost⟩ := submit_move_ok_inv g p pos g' hok
  refine ⟨?_, hInv.occ, newMove g p pos, ?_, rfl, newMove_number g p pos hInv⟩
  · apply List.ext_getElem
    · simp
    · intro i h1 h2
      simp only [List.getElem_map, List.getElem_range']
      rw [hInv.move_num i (by simpa using h1)]
      omega
  · subst hpost
    cases hw : check_winner (g.board.set pos.toNat (some p)) with
    | some w => simp [postGame, hw]
    | none =>
        cases hd : is_draw (g.board.set pos.toNat (some p)) with
        | true => simp [postGame, hw, hd]
        | false => simp [postGame, hw, hd]

/-- Witness for C6: the first move of a fresh game. -/
theorem move_numbers_contiguous_witness :
    freshGame.moves.map (fun m => m.move_number) = List.range' 1 freshGame.moves.length ∧
    occupiedCount freshGame.board = freshGame.moves.length ∧
    ∃ m, (postGame freshGame Sym.X 0).moves = freshGame.moves ++ [m] ∧
      m.move_number = (match freshGame.moves.getLast? with
        | some mv => mv.move_number + 1
        | none => 1) ∧
      m.move_number = freshGame.moves.length + 1 :=
  move_numbers_contiguous freshGame Sym.X 0 (postGame freshGame Sym.X 0)
    (Reachable.base ⟨[], 1⟩ none none) (by rfl)

/-- C8: on every reachable game the winner is set iff the status is WON;
`create_game` establishes the base case with a blank 9-cell board, X to
move, status IN_PROGRESS and no winner. -/
theorem winner_iff_status_won (g : Game) (st : Store) (xn yn : Option String)
    (h : Reachable g) :
    ((g.winner ≠ none) ↔ g.status = Status.won) ∧
    (create_game st xn yn).2.board = List.replicate 9 none ∧
    (create_game st xn yn).2.next_player = Sym.X ∧
    (create_game st xn yn).2.status = Status.in_progress ∧
    (create_game st xn yn).2.winner = none := by
  have hInv := reachable_inv g h
  refine ⟨?_, rfl, rfl, rfl, rfl⟩
  constructor
  · intro hne
    exact hInv.winner_iff.mp (Option.isSome_iff_ne_none.mpr hne)
  · intro hwon
    exact Option.isSome_iff_ne_none.mp (hInv.winner_iff.mpr hwon)

/-- Witness for C8 at a freshly created game. -/
theorem winner_iff_status_won_witness :
    ((freshGame.winner ≠ none) ↔ freshGame.status = Status.won) ∧
    (create_game ⟨[], 1⟩ none none).2.board = List.replicate 9 none ∧
    (create_game ⟨[], 1⟩ none none).2.next_player = Sym.X ∧
    (create_game ⟨[], 1⟩ none none).2.status = Status.in_progress ∧
    (create_game ⟨[], 1⟩ none none).2.winner = none :=
  winner_iff_status_won freshGame ⟨[], 1⟩ none none (Reachable.base ⟨[], 1⟩ none none)

/-- C9: on every reachable game the board has 9 cells, X leads O by 0 or 1
cells, and the recorded moves alternate starting with X: a move carries X
iff its move_number is odd. -/
theorem moves_alternate_starting_X (g : Game) (h : Reachable g) :
    (countSym g.board Sym.X = countSym g.board Sym.O ∨
     countSym g.board Sym.X = countSym g.board Sym.O + 1) ∧
    (∀ m, m ∈ g.moves → (m.player_symbol = Sym.X ↔ m.move_number % 2 = 1)) ∧
    g.board.length = 9 := by
  have hInv := reachable_inv g h
  refine ⟨?_, ?_, hInv.len9⟩
  · rw [hInv.countX, hInv.countO]
    omega
  · intro m hm
    obtain ⟨i, hi, rfl⟩ := List.mem_iff_getElem.mp hm
    rw [hInv.move_num i hi, hInv.move_sym i hi]
    rcases Nat.mod_two_eq_zero_or_one i with h2 | h2
    · simp only [h2, reduceIte]
      constructor
      · intro _
        omega
      · intro _
        trivial
    · simp only [h2]
      constructor
      · intro hc
        simp at hc
      · intro hc
        omega

/-- Witness for C9 at a freshly created game. -/
theorem moves_alternate_starting_X_witness :
    (countSym freshGame.board Sym.X = countSym freshGame.board Sym.O ∨
     countSym freshGame.board Sym.X = countSym freshGame.board Sym.O + 1) ∧
    (∀ m, m ∈ freshGame.moves → (m.player_symbol = Sym.X ↔ m.move_number % 2 = 1)) ∧
    freshGame.board.length = 9 :=
  moves_alternate_starting_X freshGame (Reachable.base ⟨[], 1⟩ none none)

/-- C10: creating a game with the same fresh non-empty name for both
players succeeds (this path has no duplicate-name failure at all), adds
exactly one player row, and points both player references of the game at
that one player: the flush after creating X makes the O lookup find it. -/
theorem create_game_same_new_name (st : Store) (nm : String)
    (hfind : findPlayerByName st nm = none) (hne : nm ≠ "") :
    (create_game st (some nm) (some nm)).1.players =
      st.players ++ [{ id := st.nextId, name := nm }] ∧
    (create_game st (some nm) (some nm)).2.player_x_id = some st.nextId ∧
    (create_game st (some nm) (some nm)).2.player_o_id = some st.nextId := by
  have h2 : findPlayerByName
      { players := st.players ++ [{ id := st.nextId, name := nm }],
        nextId := st.nextId + 1 } nm = some { id := st.nextId, name := nm } := by
    unfold findPlayerByName at hfind ⊢
    rw [List.find?_append, hfind]
    simp
  refine ⟨?_, ?_, ?_⟩ <;> simp [create_game, resolvePlayer, hne, hfind, h2]

/-- Witness for C10: both players named Alice in an empty store. -/
theorem create_game_same_new_name_witness :
    (create_game ⟨[], 1⟩ (some "Alice") (some "Alice")).1.players =
      ([] : List PlayerRec) ++ [{ id := 1, name := "Alice" }] ∧
    (create_game ⟨[], 1⟩ (some "Alice") (some "Alice")).2.player_x_id = some 1 ∧
    (create_game ⟨[], 1⟩ (some "Alice") (some "Alice")).2.player_o_id = some 1 :=
  create_game_same_new_name ⟨[], 1⟩ "Alice" (by rfl) (by decide)

end TicTacToe
